import Mathlib

/-!
Verification of the gas-estimate utility module `app/util/custom-gas.js`.

The module is a set of pure conversions (provider gas-price estimate → wei fee,
tenths-of-gwei string → gwei string), one duration formatter (`parseWaitTime`),
and one response-normalizing fetcher (`fetchBasicGasEstimates`).

Modelling conventions:
* JavaScript numbers are IEEE-754 binary64.  Integer-valued numbers are modelled
  as `ℕ` together with an explicit correctly-rounded multiplication (`jsMulNat`,
  via `floatRound`) where a product can leave the exactly-representable range.
  `parseWaitTime` receives possibly fractional minute counts; there the number is
  modelled as an exact `ℚ`, which agrees with binary64 evaluation on the ranges
  the claims quantify over.
* `Number.prototype.toString` is modelled (`jsIntToString`) only on the region
  where ECMA-262 fixes its output without the general shortest-round-trip digit
  search: exact decimal numerals below `2^53`, and exponential notation for
  single-significant-digit values at or above `10^21`.  Outside that region the
  model returns `none` ("not modelled"), never a wrong string.
* The `BN` big-integer class comes from `ethereumjs-util` and is not under
  `src/`; it is modelled from the spec (see `bnFromString`, `bnFromNumber`,
  `bnMul`).  Likewise the display helpers `renderFromWei` / `weiToFiat` from
  `./number` are opaque parameters.
* Fallible evaluation (a thrown `InvalidInput`) is the `BNResult.invalidInput`
  constructor; all conversion functions propagate it unmodified, as the source
  has no `try`/`catch`.
-/

namespace CustomGas

/-- Decimal digit character test: code points `0x30` (`'0'`) to `0x39` (`'9'`),
the digits recognized by `parseInt` and by base-10 `BN` construction. -/
def isDigitChar (c : Char) : Bool := decide (48 ≤ c.toNat) && decide (c.toNat ≤ 57)

/-- Numeric value of a decimal digit character: `c.toNat - 48`. -/
def digitVal (c : Char) : ℕ := c.toNat - 48

/-- Value of a list of decimal digit characters, most significant first, by the
usual multiply-by-ten-and-add accumulation. -/
def digitsToNat (l : List Char) : ℕ := l.foldl (fun acc c => 10 * acc + digitVal c) 0

/-- Big-endian decimal digit characters of `n`; `fuel` bounds the recursion depth
(structural recursion, so the kernel can evaluate it). -/
def natToDecAux : ℕ → ℕ → List Char
  | 0, _ => []
  | fuel + 1, n =>
    if n < 10 then [Nat.digitChar n]
    else natToDecAux fuel (n / 10) ++ [Nat.digitChar (n % 10)]

/-- Decimal numeral of a natural number (the exact decimal string ECMA-262
produces for a nonnegative integer below `2^53`). -/
def natDecRepr (n : ℕ) : String := String.mk (natToDecAux (n + 1) n)

/-- Decimal numeral of an integer, with a leading minus sign when negative. -/
def intDecRepr (z : ℤ) : String :=
  if z < 0 then "-" ++ natDecRepr z.natAbs else natDecRepr z.natAbs

/-- Number of binary digits of `n` (`0` for `0`); fuel-based structural recursion. -/
def bitLenAux : ℕ → ℕ → ℕ
  | 0, _ => 0
  | fuel + 1, n => if n = 0 then 0 else bitLenAux fuel (n / 2) + 1

/-- Number of binary digits of `n`: `n < 2 ^ bitLen n` and `2 ^ (bitLen n - 1) ≤ n` for `n ≠ 0`. -/
def bitLen (n : ℕ) : ℕ := bitLenAux n n

/-- Round-to-nearest, ties to even, of a natural number to an IEEE-754 binary64
value.  Below `2^53` every natural number is exactly representable and this is the
identity; above, the unit in the last place of a 53-bit significand at the
magnitude of `n` is `2 ^ (bitLen n - 53)`.  (Binary64 overflow, at `2^1024`, is
far beyond every value occurring here and is not modelled.) -/
def floatRound (n : ℕ) : ℕ :=
  if n < 2 ^ 53 then n
  else
    let u := 2 ^ (bitLen n - 53)
    let q := n / u
    let r := n % u
    if 2 * r < u then q * u
    else if u < 2 * r then (q + 1) * u
    else if q % 2 = 0 then q * u else (q + 1) * u

/-- Float64 product of two exactly representable nonnegative integers: binary64
multiplication returns the correctly rounded true product. -/
def jsMulNat (a b : ℕ) : ℕ := floatRound (a * b)

/-- A JavaScript number as far as the gas-fee arithmetic of this module needs it:
either an exactly representable nonnegative integer, or `NaN` (what arithmetic on
any non-numeric estimate produces).  Fractional or negative estimates do not occur
in the properties under verification. -/
inductive JsNum where
  | int : ℕ → JsNum
  | nan : JsNum

/-- ECMA-262 `Number.prototype.toString` (radix 10) for a nonnegative
integer-valued binary64 number, modelled on the region where its output is fixed
without running the general shortest-round-trip digit search:
* below `2^53` every integer prints as its exact decimal numeral;
* at or above `10^21` printing switches to exponential notation; this is modelled
  for values that are a single decimal digit times a power of ten (such as
  `10^21`, which prints as `"1e+21"`), where that digit is the shortest
  round-tripping significand.
All other values yield `none` ("outside the modelled region"), never a wrong
string. -/
def jsIntToString (v : ℕ) : Option String :=
  if v < 2 ^ 53 then some (natDecRepr v)
  else
    let e := (natToDecAux (v + 1) v).length - 1
    if 10 ^ 21 ≤ v ∧ v % 10 ^ e = 0 then
      some (natDecRepr (v / 10 ^ e) ++ "e+" ++ natDecRepr e)
    else none

/-- Outcome of a computation that constructs `BN` big integers: either a value or
a thrown `InvalidInput` error (spec §7 taxonomy).  The source never catches, so
the error propagates through every caller unchanged. -/
inductive BNResult (α : Type) where
  | ok : α → BNResult α
  | invalidInput : BNResult α
deriving DecidableEq

/-- Propagating map: a value is transformed, an error passes through unmodified. -/
def BNResult.map {α β : Type} (f : α → β) : BNResult α → BNResult β
  | BNResult.ok a => BNResult.ok (f a)
  | BNResult.invalidInput => BNResult.invalidInput

/-- Modelled from the spec: construction of an arbitrary-precision `BN` integer
from a base-10 string (`new BN(s, 10)`); the `BN` class of `ethereumjs-util` is
not under `src/`.  Spec §4.1/§7: a numeric string yields the exact integer, and a
non-numeric string "must fail with an InvalidInput error ... rather than silently
producing garbage". -/
def bnFromString (s : String) : BNResult ℕ :=
  if s.data ≠ [] ∧ s.data.all isDigitChar then BNResult.ok (digitsToNat s.data)
  else BNResult.invalidInput

/-- Modelled from the spec: construction of a `BN` from an integer-valued number
(`new BN(gasLimit, 10)`; the class is not under `src/`).  Spec §3/§4.1: the gas
limit is an unsigned integer, construction is exact, and wei arithmetic must
support gas-limit values up to at least `2^63`. -/
def bnFromNumber (n : ℕ) : ℕ := n

/-- Modelled from the spec: `BN.prototype.mul`, exact full-precision
multiplication of arbitrary-precision integers. -/
def bnMul (a b : ℕ) : ℕ := a * b

/-- Rate used by the source: `const GWEIRate = 1000000000`. -/
def GWEIRate : ℕ := 1000000000

/-- Source `apiEstimateModifiedToWEI(estimate)`:
`new BN((estimate * GWEIRate).toString(), 10)`.
The product `estimate * GWEIRate` is binary64 multiplication; multiplying `NaN`
gives `NaN`, whose string is `"NaN"`.  `none` means the product fell outside the
exactly-modelled region of `Number.toString` (never the case for the inputs the
claims quantify over). -/
def apiEstimateModifiedToWEI : JsNum → Option (BNResult ℕ)
  | JsNum.nan => some (bnFromString "NaN")
  | JsNum.int e => (jsIntToString (jsMulNat e GWEIRate)).map bnFromString

/-- Source `getWeiGasFee(estimate, gasLimit = 21000)`:
`apiEstimateModifiedToWEI(estimate).mul(new BN(gasLimit, 10))`. -/
def getWeiGasFee (estimate : JsNum) (gasLimit : ℕ := 21000) : Option (BNResult ℕ) :=
  (apiEstimateModifiedToWEI estimate).map
    (BNResult.map (fun w => bnMul w (bnFromNumber gasLimit)))

/-- Source `getRenderableEthGasFee(estimate, gasLimit = 21000)`: feeds the wei fee
into the external display helper `renderFromWei` (imported from `./number`, which
is not under `src/`; modelled from the spec as an opaque black-box parameter,
"render wei amount as a display string").  An error thrown below it propagates
past it: the helper is never reached. -/
def getRenderableEthGasFee (renderFromWei : ℕ → String) (estimate : JsNum)
    (gasLimit : ℕ := 21000) : Option (BNResult String) :=
  (getWeiGasFee estimate gasLimit).map (BNResult.map renderFromWei)

/-- Source `getRenderableFiatGasFee(estimate, conversionRate, currencyCode,
gasLimit = 21000)`: feeds the wei fee into the external helper `weiToFiat` (not
under `src/`; opaque black-box parameter). -/
def getRenderableFiatGasFee (weiToFiat : ℕ → ℚ → String → String) (estimate : JsNum)
    (conversionRate : ℚ) (currencyCode : String) (gasLimit : ℕ := 21000) :
    Option (BNResult String) :=
  (getWeiGasFee estimate gasLimit).map
    (BNResult.map (fun w => weiToFiat w conversionRate currencyCode))

/-! ### Decimal numeral lemmas -/

theorem digitVal_digitChar {d : ℕ} (h : d < 10) : digitVal (Nat.digitChar d) = d := by
  interval_cases d <;> rfl

theorem isDigit_digitChar {d : ℕ} (h : d < 10) : isDigitChar (Nat.digitChar d) = true := by
  interval_cases d <;> rfl

theorem digitsToNat_append (l : List Char) (c : Char) :
    digitsToNat (l ++ [c]) = 10 * digitsToNat l + digitVal c := by
  simp [digitsToNat, List.foldl_append]

theorem natToDecAux_spec :
    ∀ fuel n : ℕ, n < fuel →
      natToDecAux fuel n ≠ [] ∧
      (∀ c ∈ natToDecAux fuel n, isDigitChar c = true) ∧
      digitsToNat (natToDecAux fuel n) = n := by
  intro fuel
  induction fuel with
  | zero => intro n h; omega
  | succ f ih =>
    intro n h
    by_cases h10 : n < 10
    · refine ⟨by simp [natToDecAux, h10], ?_, ?_⟩
      · intro c hc
        simp [natToDecAux, h10] at hc
        subst hc
        exact isDigit_digitChar h10
      · simp [natToDecAux, h10, digitsToNat, digitVal_digitChar h10]
    · have hn0 : 0 < n := by omega
      have hdiv : n / 10 < f := by
        have : n / 10 < n := Nat.div_lt_self hn0 (by omega)
        omega
      obtain ⟨hne, hdig, hval⟩ := ih (n / 10) hdiv
      have hmod : n % 10 < 10 := Nat.mod_lt _ (by omega)
      refine ⟨by simp [natToDecAux, h10], ?_, ?_⟩
      · intro c hc
        simp [natToDecAux, h10] at hc
        rcases hc with hc | hc
        · exact hdig c hc
        · subst hc; exact isDigit_digitChar hmod
      · rw [natToDecAux]
        simp only [h10, if_false]
        rw [digitsToNat_append, hval, digitVal_digitChar hmod]
        omega

theorem natDecRepr_ne_empty (n : ℕ) : (natDecRepr n).data ≠ [] :=
  (natToDecAux_spec (n + 1) n (Nat.lt_succ_self n)).1

theorem natDecRepr_all_digits (n : ℕ) : ∀ c ∈ (natDecRepr n).data, isDigitChar c = true :=
  (natToDecAux_spec (n + 1) n (Nat.lt_succ_self n)).2.1

theorem digitsToNat_natDecRepr (n : ℕ) : digitsToNat (natDecRepr n).data = n :=
  (natToDecAux_spec (n + 1) n (Nat.lt_succ_self n)).2.2

/-- Round trip through the spec-modelled `BN` string constructor: the decimal
numeral of `n` constructs exactly `n`. -/
theorem bnFromString_natDecRepr (n : ℕ) : bnFromString (natDecRepr n) = BNResult.ok n := by
  have h1 := natDecRepr_ne_empty n
  have h2 := natDecRepr_all_digits n
  have h3 := digitsToNat_natDecRepr n
  rw [bnFromString, if_pos ⟨h1, List.all_eq_true.mpr h2⟩, h3]

/-! ### Float rounding and printing on the exact range -/

theorem floatRound_of_lt {n : ℕ} (h : n < 2 ^ 53) : floatRound n = n := by
  rw [floatRound, if_pos h]

theorem jsIntToString_of_lt {v : ℕ} (h : v < 2 ^ 53) :
    jsIntToString v = some (natDecRepr v) := by
  rw [jsIntToString, if_pos h]

/-! ### Claim C1 -/

/-- C1 (amended): for every non-negative integer estimate `e` whose wei value
`e * 1_000_000_000` stays below `2^53` (so both the binary64 product and its
decimal printing are exact) and every non-negative integer gas limit `g`
(default 21000), `getWeiGasFee(e, g)` returns the big integer
`e * 1_000_000_000 * g` exactly.  The claim as stated — exactness for *every*
non-negative integer estimate — fails: see
`getWeiGasFee_largeEstimate_not_exact`. -/
theorem getWeiGasFee_exact (e g : ℕ) (h : e * 1000000000 < 2 ^ 53) :
    getWeiGasFee (JsNum.int e) g = some (BNResult.ok (e * 1000000000 * g)) := by
  have hm : jsMulNat e GWEIRate = e * 1000000000 := by
    have : e * GWEIRate = e * 1000000000 := rfl
    rw [jsMulNat, this]
    exact floatRound_of_lt h
  simp [getWeiGasFee, apiEstimateModifiedToWEI, hm, jsIntToString_of_lt h,
    bnFromString_natDecRepr, BNResult.map, bnMul, bnFromNumber]

/-- Witness for C1 (amended) at `e = 3`, `g = 2`. -/
theorem getWeiGasFee_exact_w :
    getWeiGasFee (JsNum.int 3) 2 = some (BNResult.ok (3 * 1000000000 * 2)) :=
  getWeiGasFee_exact 3 2 (by decide)

/-- Counterexample to C1 as stated: at estimate `e = 10^12` (with the default gas
limit 21000) the binary64 product is `10^21`, which `Number.toString` prints in
exponential notation as `"1e+21"`; the base-10 `BN` construction of that string
is an invalid-input failure, not the exact big integer `10^12 * 10^9 * 21000`. -/
theorem getWeiGasFee_largeEstimate_not_exact :
    getWeiGasFee (JsNum.int (10 ^ 12)) 21000 = some BNResult.invalidInput ∧
    getWeiGasFee (JsNum.int (10 ^ 12)) 21000 ≠
      some (BNResult.ok (10 ^ 12 * 1000000000 * 21000)) := by
  constructor
  · decide
  · decide

/-! ### Claim C8 -/

/-- C8: a non-numeric estimate (modelled by `JsNum.nan`: arithmetic on any
non-numeric input yields `NaN`, and `(NaN).toString()` is `"NaN"`) makes
`apiEstimateModifiedToWEI` fail with an `InvalidInput` error arising from the
invalid big-integer construction rather than return a garbage value, and the
failure propagates unmodified through `getWeiGasFee` and both renderable fee
functions — no conversion or formatting function catches it, and the external
display helpers are never reached. -/
theorem nonNumericEstimate_invalidInput :
    ∀ (g : ℕ) (renderFromWei : ℕ → String) (weiToFiat : ℕ → ℚ → String → String)
      (conversionRate : ℚ) (currencyCode : String),
      apiEstimateModifiedToWEI JsNum.nan = some BNResult.invalidInput ∧
      getWeiGasFee JsNum.nan g = some BNResult.invalidInput ∧
      getRenderableEthGasFee renderFromWei JsNum.nan g = some BNResult.invalidInput ∧
      getRenderableFiatGasFee weiToFiat JsNum.nan conversionRate currencyCode g =
        some BNResult.invalidInput := by
  intro g r w cr cc
  exact ⟨rfl, rfl, rfl, rfl⟩

/-! ### Wait-time formatter -/

/-- Truncation toward zero of a rational, as JavaScript coerces the quotient for
the `%` operator. -/
def ratTrunc (q : ℚ) : ℤ := if 0 ≤ q then ⌊q⌋ else ⌈q⌉

/-- JavaScript `%` on numbers: remainder with the sign of the dividend,
`a - b * trunc (a / b)`. -/
def jsMod (a b : ℚ) : ℚ := a - b * ratTrunc (a / b)

/-- JavaScript `Math.round`: nearest integer, half-way cases toward positive
infinity. -/
def jsRound (q : ℚ) : ℤ := ⌊q + 1 / 2⌋

/-- Segment concatenation of the source: `if (parsed !== '') parsed += ' ';
parsed += seg`. -/
def appendSeg (parsed seg : String) : String :=
  if parsed = "" then seg else parsed ++ " " ++ seg

/-- Source `parseWaitTime(min, strHour, strMin, strSec)`, translated line by
line.  The boolean flags of the source hold exactly when their setting branch
ran, so they are inlined as those conditions: `weekRendered ↔ weeks ≠ 0`,
`dayRendered ↔ days ≠ 0`, `hourRendered ↔ weeks = 0 ∧ hours ≠ 0`,
`minRendered ↔ weeks = 0 ∧ days = 0 ∧ 1 ≤ minutes`.  `min1`/`min2`/`min3`/`min4`
are the successive reassignments of `min`, `tempMin0`/`tempMin1`/`tempMin2`
those of `tempMin`.  JavaScript truthiness of an integer-valued number is
`≠ 0`.  The minute count is modelled as an exact rational; the spec leaves
negative and `NaN` input unspecified. -/
def parseWaitTime (min : ℚ) (strHour strMin strSec : String) : String :=
  let weeks : ℤ := ⌊min / 10080⌋
  let parsed0 : String := if weeks ≠ 0 then intDecRepr weeks ++ "week" else ""
  let tempMin0 : ℚ := jsMod min 10080
  let days : ℤ := ⌊tempMin0 / 1440⌋
  let parsed1 : String :=
    if days ≠ 0 then appendSeg parsed0 (intDecRepr days ++ "day") else parsed0
  let min1 : ℚ := if days ≠ 0 then tempMin0 else min
  let tempMin1 : ℚ := jsMod min1 1440
  let hours : ℤ := ⌊tempMin1 / 60⌋
  let parsed2 : String :=
    if weeks = 0 ∧ hours ≠ 0 then appendSeg parsed1 (intDecRepr hours ++ strHour) else parsed1
  let min2 : ℚ := if weeks = 0 ∧ hours ≠ 0 then tempMin1 else min1
  let tempMin2 : ℚ := jsMod min2 60
  let minutes : ℤ := ⌊tempMin2⌋
  let parsed3 : String :=
    if weeks = 0 ∧ days = 0 ∧ 1 ≤ minutes then appendSeg parsed2 (intDecRepr minutes ++ strMin)
    else parsed2
  let min3 : ℚ := if weeks = 0 ∧ days = 0 ∧ 1 ≤ minutes then tempMin2 else min2
  let min4 : ℚ := jsMod min3 1
  let seconds : ℚ := (jsRound (min4 * 100) * 3 : ℚ) / 5
  if weeks = 0 ∧ days = 0 ∧ ¬(weeks = 0 ∧ hours ≠ 0) ∧
      ¬(weeks = 0 ∧ days = 0 ∧ 1 ≤ minutes) ∧ 1 < seconds then
    appendSeg parsed3 (intDecRepr ⌈seconds⌉ ++ strSec)
  else parsed3

/-! ### String and modulus helper lemmas -/

theorem string_ne_empty_of_data {s : String} (h : s.data ≠ []) : s ≠ "" := by
  intro he
  subst he
  exact h rfl

theorem append_ne_empty_left {s t : String} (h : s ≠ "") : s ++ t ≠ "" := by
  intro he
  apply h
  have hd : s.data ++ t.data = [] := by
    have := congrArg String.data he
    simpa [String.data_append] using this
  exact congrArg String.mk (List.append_eq_nil.mp hd).1

theorem natDecRepr_ne_empty' (n : ℕ) : natDecRepr n ≠ "" :=
  string_ne_empty_of_data (natDecRepr_ne_empty n)

theorem intDecRepr_ne_empty (z : ℤ) : intDecRepr z ≠ "" := by
  rw [intDecRepr]
  split
  · exact append_ne_empty_left (by decide)
  · exact natDecRepr_ne_empty' _

theorem appendSeg_empty (seg : String) : appendSeg "" seg = seg := by
  rw [appendSeg, if_pos rfl]

theorem appendSeg_of_ne {parsed : String} (h : parsed ≠ "") (seg : String) :
    appendSeg parsed seg = parsed ++ " " ++ seg := by
  rw [appendSeg, if_neg h]

theorem bounds_of_floor_div_eq_zero {a b : ℚ} (hb : 0 < b) (h : ⌊a / b⌋ = 0) :
    0 ≤ a ∧ a < b := by
  rw [Int.floor_eq_zero_iff] at h
  obtain ⟨h0, h1⟩ := h
  constructor
  · by_contra hneg
    push_neg at hneg
    exact absurd (div_neg_of_neg_of_pos hneg hb) (not_lt.mpr h0)
  · exact (div_lt_one hb).mp h1

theorem jsMod_eq_self {a b : ℚ} (hb : 0 < b) (h0 : 0 ≤ a) (h1 : a < b) :
    jsMod a b = a := by
  have hq0 : 0 ≤ a / b := div_nonneg h0 hb.le
  have hq1 : a / b < 1 := (div_lt_one hb).mpr h1
  have hfl : ⌊a / b⌋ = 0 := Int.floor_eq_zero_iff.mpr ⟨hq0, hq1⟩
  rw [jsMod, ratTrunc, if_pos hq0, hfl]
  push_cast
  ring

/-! ### Claim C4 -/

/-- C4: whenever `⌊min / 10080⌋ > 0` the weeks segment renders (with the
hard-coded label `"week"`), a days segment additionally renders exactly when
`⌊(min % 10080) / 1440⌋` is nonzero — despite the week having rendered — and
hours, minutes and seconds are all suppressed (their render conditions require
`weekRendered` to be false). -/
theorem parseWaitTime_weeks (min : ℚ) (strHour strMin strSec : String)
    (hw : 0 < ⌊min / 10080⌋) :
    parseWaitTime min strHour strMin strSec =
      if ⌊jsMod min 10080 / 1440⌋ ≠ 0 then
        (intDecRepr ⌊min / 10080⌋ ++ "week") ++ " " ++
          (intDecRepr ⌊jsMod min 10080 / 1440⌋ ++ "day")
      else intDecRepr ⌊min / 10080⌋ ++ "week" := by
  have hne : ⌊min / 10080⌋ ≠ 0 := by omega
  have hpe : intDecRepr ⌊min / 10080⌋ ++ "week" ≠ "" :=
    append_ne_empty_left (intDecRepr_ne_empty _)
  by_cases hd : ⌊jsMod min 10080 / 1440⌋ = 0
  · simp [parseWaitTime, hne, hd]
  · simp [parseWaitTime, hne, hd, appendSeg_of_ne hpe]

theorem floor_10081_10080 : ⌊(10081 : ℚ) / 10080⌋ = 1 := by norm_num

theorem jsMod_10081_10080 : jsMod (10081 : ℚ) 10080 = 1 := by
  rw [jsMod, ratTrunc, if_pos (by positivity), floor_10081_10080]
  norm_num

theorem floor_one_1440 : ⌊(1 : ℚ) / 1440⌋ = 0 := by norm_num

/-- Witness for C4 at `min = 10081`: one week, remainder `1` minute, day part
zero, so the result is exactly `"1week"`. -/
theorem parseWaitTime_weeks_w : parseWaitTime 10081 "h" "m" "s" = "1week" := by
  rw [parseWaitTime_weeks 10081 "h" "m" "s" (by simp [floor_10081_10080])]
  rw [jsMod_10081_10080]
  simp only [floor_one_1440, floor_10081_10080, ne_eq, not_true_eq_false,
    if_false]
  decide

/-! ### Claim C2 -/

/-- Helper: with no week and no day rendered but a nonzero hour count, the
formatter renders the hours segment and then — because the minutes condition
checks `weekRendered` and `dayRendered` but not `hourRendered` — also the
minutes segment whenever `⌊(min % 1440) % 60⌋ ≥ 1`; seconds stay suppressed. -/
theorem parseWaitTime_hoursBranch (min : ℚ) (strHour strMin strSec : String)
    (hw : ⌊min / 10080⌋ = 0) (hd : ⌊jsMod min 10080 / 1440⌋ = 0)
    (hh : 0 < ⌊jsMod min 1440 / 60⌋) :
    parseWaitTime min strHour strMin strSec =
      if 1 ≤ ⌊jsMod (jsMod min 1440) 60⌋ then
        (intDecRepr ⌊jsMod min 1440 / 60⌋ ++ strHour) ++ " " ++
          (intDecRepr ⌊jsMod (jsMod min 1440) 60⌋ ++ strMin)
      else intDecRepr ⌊jsMod min 1440 / 60⌋ ++ strHour := by
  obtain ⟨h0, hlt⟩ := bounds_of_floor_div_eq_zero (by norm_num) hw
  have hm0 : jsMod min 10080 = min := jsMod_eq_self (by norm_num) h0 hlt
  rw [hm0] at hd
  obtain ⟨_, hlt2⟩ := bounds_of_floor_div_eq_zero (by norm_num) hd
  have hm1 : jsMod min 1440 = min := jsMod_eq_self (by norm_num) h0 hlt2
  rw [hm1] at hh ⊢
  have hne : ⌊min / 60⌋ ≠ 0 := by omega
  have hpe : intDecRepr ⌊min / 60⌋ ++ strHour ≠ "" :=
    append_ne_empty_left (intDecRepr_ne_empty _)
  by_cases hm : 1 ≤ ⌊jsMod min 60⌋
  · simp [parseWaitTime, hw, hd, hm0, hm1, hne, hm, appendSeg_of_ne hpe, appendSeg_empty]
  · simp [parseWaitTime, hw, hd, hm0, hm1, hne, hm, appendSeg_empty]

/-- C2 (amended): for every `min` with no week or day segment rendered and
`⌊(min % 1440) / 60⌋ > 0`, `parseWaitTime` renders the hours segment, renders
the minutes segment too whenever `⌊(min % 1440) % 60⌋ ≥ 1` (the minutes check
does not consult `hourRendered`), and suppresses seconds; in particular
`parseWaitTime(90, "h", "m", "s") = "1h 30m"`, not `"1h"`. -/
theorem parseWaitTime_hours_renders_minutes (min : ℚ) (strHour strMin strSec : String)
    (hw : ⌊min / 10080⌋ = 0) (hd : ⌊jsMod min 10080 / 1440⌋ = 0)
    (hh : 0 < ⌊jsMod min 1440 / 60⌋) :
    parseWaitTime min strHour strMin strSec =
      if 1 ≤ ⌊jsMod (jsMod min 1440) 60⌋ then
        (intDecRepr ⌊jsMod min 1440 / 60⌋ ++ strHour) ++ " " ++
          (intDecRepr ⌊jsMod (jsMod min 1440) 60⌋ ++ strMin)
      else intDecRepr ⌊jsMod min 1440 / 60⌋ ++ strHour :=
  parseWaitTime_hoursBranch min strHour strMin strSec hw hd hh

theorem floor90w : ⌊(90 : ℚ) / 10080⌋ = 0 := by norm_num

theorem mod90w : jsMod (90 : ℚ) 10080 = 90 :=
  jsMod_eq_self (by norm_num) (by norm_num) (by norm_num)

theorem floor90d : ⌊(90 : ℚ) / 1440⌋ = 0 := by norm_num

theorem mod90d : jsMod (90 : ℚ) 1440 = 90 :=
  jsMod_eq_self (by norm_num) (by norm_num) (by norm_num)

theorem floor90h : ⌊(90 : ℚ) / 60⌋ = 1 := by norm_num

theorem mod90h : jsMod (90 : ℚ) 60 = 30 := by
  rw [jsMod, ratTrunc, if_pos (by norm_num), floor90h]
  norm_num

theorem floor30 : ⌊(30 : ℚ)⌋ = 30 := by norm_num

theorem hd90 : ⌊jsMod (90 : ℚ) 10080 / 1440⌋ = 0 := by rw [mod90w]; exact floor90d

theorem hh90 : 0 < ⌊jsMod (90 : ℚ) 1440 / 60⌋ := by rw [mod90d, floor90h]; norm_num

/-- Counterexample to C2 as stated: at `min = 90` (one hour, thirty minutes) the
minutes segment is *not* suppressed once hours render — the result is
`"1h 30m"`, not `"1h"`. -/
theorem parseWaitTime_90_renders_minutes :
    parseWaitTime 90 "h" "m" "s" = "1h 30m" ∧ parseWaitTime 90 "h" "m" "s" ≠ "1h" := by
  have h := parseWaitTime_hoursBranch 90 "h" "m" "s" floor90w hd90 hh90
  rw [mod90d, mod90h, floor90h, floor30] at h
  rw [if_pos (by norm_num)] at h
  have hv : parseWaitTime 90 "h" "m" "s" = "1h 30m" := by rw [h]; decide
  exact ⟨hv, by rw [hv]; decide⟩

/-- Witness for C2 (amended) at `min = 90`. -/
theorem parseWaitTime_hours_renders_minutes_w : parseWaitTime 90 "h" "m" "s" = "1h 30m" := by
  rw [parseWaitTime_hours_renders_minutes 90 "h" "m" "s" floor90w hd90 hh90]
  rw [mod90d, mod90h, floor90h, floor30]
  rw [if_pos (by decide)]
  decide

/-! ### Claim C3 -/

/-- Helper: with no week rendered and a nonzero day count, the formatter renders
the days segment and then — because the hours condition checks `weekRendered`
but not `dayRendered` — also the hours segment whenever `⌊(min % 1440) / 60⌋` is
nonzero; minutes and seconds stay suppressed. -/
theorem parseWaitTime_daysBranch (min : ℚ) (strHour strMin strSec : String)
    (hw : ⌊min / 10080⌋ = 0) (hd : 0 < ⌊jsMod min 10080 / 1440⌋) :
    parseWaitTime min strHour strMin strSec =
      if ⌊jsMod min 1440 / 60⌋ ≠ 0 then
        (intDecRepr ⌊jsMod min 10080 / 1440⌋ ++ "day") ++ " " ++
          (intDecRepr ⌊jsMod min 1440 / 60⌋ ++ strHour)
      else intDecRepr ⌊jsMod min 10080 / 1440⌋ ++ "day" := by
  obtain ⟨h0, hlt⟩ := bounds_of_floor_div_eq_zero (by norm_num) hw
  have hm0 : jsMod min 10080 = min := jsMod_eq_self (by norm_num) h0 hlt
  rw [hm0] at hd ⊢
  have hdne : ⌊min / 1440⌋ ≠ 0 := by omega
  have hpe : intDecRepr ⌊min / 1440⌋ ++ "day" ≠ "" :=
    append_ne_empty_left (intDecRepr_ne_empty _)
  by_cases hh : ⌊jsMod min 1440 / 60⌋ = 0
  · simp [parseWaitTime, hw, hm0, hdne, hh, appendSeg_empty]
  · simp [parseWaitTime, hw, hm0, hdne, hh, appendSeg_empty, appendSeg_of_ne hpe]

/-- C3 (amended): for every `min` with no week segment rendered and
`⌊(min % 10080) / 1440⌋ > 0`, `parseWaitTime` renders the days segment, renders
the hours segment too whenever `⌊(min % 1440) / 60⌋` is nonzero (the hours check
gates only on `weekRendered`, not on `dayRendered`), and suppresses minutes and
seconds; in particular `parseWaitTime(1500, "h", "m", "s") = "1day 1h"`, not
`"1day"`. -/
theorem parseWaitTime_days_renders_hours (min : ℚ) (strHour strMin strSec : String)
    (hw : ⌊min / 10080⌋ = 0) (hd : 0 < ⌊jsMod min 10080 / 1440⌋) :
    parseWaitTime min strHour strMin strSec =
      if ⌊jsMod min 1440 / 60⌋ ≠ 0 then
        (intDecRepr ⌊jsMod min 10080 / 1440⌋ ++ "day") ++ " " ++
          (intDecRepr ⌊jsMod min 1440 / 60⌋ ++ strHour)
      else intDecRepr ⌊jsMod min 10080 / 1440⌋ ++ "day" :=
  parseWaitTime_daysBranch min strHour strMin strSec hw hd

theorem floor1500w : ⌊(1500 : ℚ) / 10080⌋ = 0 := by norm_num

theorem mod1500w : jsMod (1500 : ℚ) 10080 = 1500 :=
  jsMod_eq_self (by norm_num) (by norm_num) (by norm_num)

theorem floor1500d : ⌊(1500 : ℚ) / 1440⌋ = 1 := by norm_num

theorem mod1500d : jsMod (1500 : ℚ) 1440 = 60 := by
  rw [jsMod, ratTrunc, if_pos (by norm_num), floor1500d]
  norm_num

theorem floor60h : ⌊(60 : ℚ) / 60⌋ = 1 := by norm_num

theorem hd1500 : 0 < ⌊jsMod (1500 : ℚ) 10080 / 1440⌋ := by
  rw [mod1500w, floor1500d]
  norm_num

/-- Counterexample to C3 as stated: at `min = 1500` (one day, one hour) the
hours segment is *not* suppressed once the day renders — the result is
`"1day 1h"`, not `"1day"`. -/
theorem parseWaitTime_1500_renders_hours :
    parseWaitTime 1500 "h" "m" "s" = "1day 1h" ∧ parseWaitTime 1500 "h" "m" "s" ≠ "1day" := by
  have h := parseWaitTime_daysBranch 1500 "h" "m" "s" floor1500w hd1500
  rw [mod1500w, mod1500d, floor1500d, floor60h] at h
  rw [if_pos (by norm_num)] at h
  have hv : parseWaitTime 1500 "h" "m" "s" = "1day 1h" := by rw [h]; decide
  exact ⟨hv, by rw [hv]; decide⟩

/-- Witness for C3 (amended) at `min = 1500`. -/
theorem parseWaitTime_days_renders_hours_w : parseWaitTime 1500 "h" "m" "s" = "1day 1h" := by
  rw [parseWaitTime_days_renders_hours 1500 "h" "m" "s" floor1500w hd1500]
  rw [mod1500w, mod1500d, floor1500d, floor60h]
  rw [if_pos (by decide)]
  decide

/-! ### Claim C5 -/

/-- C5: for `0 ≤ min < 1` no week, day, hour or minute segment renders; the
seconds count is `round(min * 100) * 3 / 5` and the formatter returns its
ceiling followed by `strSec` when it exceeds `1`, and the empty string
otherwise; in particular `parseWaitTime(0, "h", "m", "s") = ""` and
`parseWaitTime(0.5, "h", "m", "s") = "30s"`. -/
theorem parseWaitTime_secondsBranch (min : ℚ) (strHour strMin strSec : String)
    (h0 : 0 ≤ min) (h1 : min < 1) :
    parseWaitTime min strHour strMin strSec =
      if 1 < (jsRound (min * 100) * 3 : ℚ) / 5 then
        intDecRepr ⌈(jsRound (min * 100) * 3 : ℚ) / 5⌉ ++ strSec
      else "" := by
  have hw : ⌊min / 10080⌋ = 0 :=
    Int.floor_eq_zero_iff.mpr
      ⟨div_nonneg h0 (by norm_num), (div_lt_one (by norm_num)).mpr (by linarith)⟩
  have hm0 : jsMod min 10080 = min := jsMod_eq_self (by norm_num) h0 (by linarith)
  have hd : ⌊min / 1440⌋ = 0 :=
    Int.floor_eq_zero_iff.mpr
      ⟨div_nonneg h0 (by norm_num), (div_lt_one (by norm_num)).mpr (by linarith)⟩
  have hm1 : jsMod min 1440 = min := jsMod_eq_self (by norm_num) h0 (by linarith)
  have hh : ⌊min / 60⌋ = 0 :=
    Int.floor_eq_zero_iff.mpr
      ⟨div_nonneg h0 (by norm_num), (div_lt_one (by norm_num)).mpr (by linarith)⟩
  have hm2 : jsMod min 60 = min := jsMod_eq_self (by norm_num) h0 (by linarith)
  have hfl : ⌊min⌋ = 0 := Int.floor_eq_zero_iff.mpr ⟨h0, h1⟩
  have hm3 : jsMod min 1 = min := jsMod_eq_self (by norm_num) h0 h1
  by_cases hs : 1 < (jsRound (min * 100) * 3 : ℚ) / 5
  · simp [parseWaitTime, hw, hm0, hd, hm1, hh, hm2, hfl, hm3, hs, appendSeg_empty]
  · simp [parseWaitTime, hw, hm0, hd, hm1, hh, hm2, hfl, hm3, hs, appendSeg_empty]

theorem half_nonneg : (0 : ℚ) ≤ 0.5 := by norm_num

theorem half_lt_one : (0.5 : ℚ) < 1 := by norm_num

theorem round_half_x100 : jsRound ((0.5 : ℚ) * 100) = 50 := by
  rw [jsRound]
  norm_num

theorem secs_of_50 : ((50 : ℤ) * 3 : ℚ) / 5 = 30 := by norm_num

theorem one_lt_thirty : (1 : ℚ) < 30 := by norm_num

theorem ceil_thirty : ⌈(30 : ℚ)⌉ = 30 := by norm_num

theorem round_zero_x100 : jsRound ((0 : ℚ) * 100) = 0 := by
  rw [jsRound]
  norm_num

theorem secs_of_0 : ((0 : ℤ) * 3 : ℚ) / 5 = 0 := by norm_num

theorem not_one_lt_zero : ¬((1 : ℚ) < 0) := by norm_num

/-- Witness for C5 at `min = 0.5` (seconds render: `"30s"`) and `min = 0`
(below the threshold: `""`). -/
theorem parseWaitTime_secondsBranch_w :
    parseWaitTime 0.5 "h" "m" "s" = "30s" ∧ parseWaitTime 0 "h" "m" "s" = "" := by
  constructor
  · rw [parseWaitTime_secondsBranch 0.5 "h" "m" "s" half_nonneg half_lt_one]
    rw [round_half_x100, secs_of_50]
    rw [if_pos one_lt_thirty, ceil_thirty]
    decide
  · rw [parseWaitTime_secondsBranch 0 "h" "m" "s" (le_refl 0) zero_lt_one]
    rw [round_zero_x100, secs_of_0]
    rw [if_neg not_one_lt_zero]

/-! ### API value to GWEI conversion -/

/-- ECMA-262 white space and line terminators stripped by `parseInt`: space,
tab, line feed, carriage return, vertical tab, form feed (the common ASCII
subset; the exotic Unicode space code points never collide with digits either). -/
def isJsWhitespace (c : Char) : Bool :=
  c == ' ' || c == Char.ofNat 9 || c == Char.ofNat 10 || c == Char.ofNat 13 ||
    c == Char.ofNat 11 || c == Char.ofNat 12

/-- ECMA-262 `parseInt(s, 10)`: skip leading white space, read an optional
sign, then the longest prefix of decimal digits; the result is `NaN` (here
`none`) when that prefix is empty, and trailing garbage is ignored.  (The true
`parseInt` finally rounds the integer to binary64; every input evaluated
through this model stays far below `2^53`, where that rounding is the
identity.) -/
def jsParseIntBase10 (s : String) : Option ℤ :=
  let l := s.data.dropWhile isJsWhitespace
  let sign : ℤ := if l.head? = some '-' then -1 else 1
  let l2 := if l.head? = some '-' ∨ l.head? = some '+' then l.tail else l
  let digits := l2.takeWhile isDigitChar
  if digits = [] then none else some (sign * (digitsToNat digits : ℤ))

/-- ECMA-262 printing of `n / 10` for an integer `n`: the quotient is exact in
tenths, and for `|n| < 10^15` binary64 division followed by
shortest-round-trip printing reproduces exactly the decimal `a.b` (or the
plain `a` when the tenths digit is zero).  Beyond that bound the model returns
`none` rather than risk a wrongly printed string. -/
def jsTenthToString (n : ℤ) : Option String :=
  if n.natAbs < 10 ^ 15 then
    some
      (if n < 0 ∧ n.natAbs ≠ 0 then
        "-" ++
          (if n.natAbs % 10 = 0 then natDecRepr (n.natAbs / 10)
           else natDecRepr (n.natAbs / 10) ++ "." ++ natDecRepr (n.natAbs % 10))
      else
        (if n.natAbs % 10 = 0 then natDecRepr (n.natAbs / 10)
         else natDecRepr (n.natAbs / 10) ++ "." ++ natDecRepr (n.natAbs % 10)))
  else none

/-- Source `convertApiValueToGWEI(val)`: `(parseInt(val, 10) / 10).toString()`.
`parseInt` of a string without a digit prefix is `NaN`, `NaN / 10` is `NaN`,
and `String(NaN)` is `"NaN"` — no error is ever raised.  `none` only marks the
region `|n| ≥ 10^15` where the printing model declines to answer. -/
def convertApiValueToGWEI (val : String) : Option String :=
  match jsParseIntBase10 val with
  | none => some "NaN"
  | some n => jsTenthToString n

theorem not_whitespace_of_isDigitChar {c : Char} (h : isDigitChar c = true) :
    isJsWhitespace c = false := by
  simp only [isDigitChar, Bool.and_eq_true, decide_eq_true_eq] at h
  simp only [isJsWhitespace, Bool.or_eq_false_iff, beq_eq_false_iff_ne]
  refine ⟨⟨⟨⟨⟨?_, ?_⟩, ?_⟩, ?_⟩, ?_⟩, ?_⟩ <;>
    · rintro rfl
      exact absurd h.1 (by decide)

theorem digit_ne_minus {c : Char} (h : isDigitChar c = true) : c ≠ '-' := by
  rintro rfl
  exact absurd h (by decide)

theorem digit_ne_plus {c : Char} (h : isDigitChar c = true) : c ≠ '+' := by
  rintro rfl
  exact absurd h (by decide)

theorem takeWhile_eq_self_of_all {p : Char → Bool} :
    ∀ {l : List Char}, (∀ c ∈ l, p c = true) → l.takeWhile p = l := by
  intro l
  induction l with
  | nil => intro _; rfl
  | cons c cs ih =>
    intro h
    rw [List.takeWhile_cons_of_pos (h c (List.mem_cons_self c cs))]
    rw [ih fun x hx => h x (List.mem_cons_of_mem c hx)]

/-- Round trip: `parseInt` applied to the decimal numeral of `n` recovers `n`. -/
theorem jsParseIntBase10_natDecRepr (n : ℕ) :
    jsParseIntBase10 (natDecRepr n) = some ((n : ℤ)) := by
  obtain ⟨hne, hdig, hval⟩ := natToDecAux_spec (n + 1) n (Nat.lt_succ_self n)
  rw [jsParseIntBase10]
  have hdata : (natDecRepr n).data = natToDecAux (n + 1) n := rfl
  rcases hl : natToDecAux (n + 1) n with _ | ⟨c, cs⟩
  · exact absurd hl hne
  rw [hl] at hdata hdig hval
  have hcd : isDigitChar c = true := hdig c (List.mem_cons_self c cs)
  have hdrop : (c :: cs).dropWhile isJsWhitespace = c :: cs := by
    rw [List.dropWhile_cons_of_neg]
    simp [not_whitespace_of_isDigitChar hcd]
  have hhead : (c :: cs).head? = some c := rfl
  have hnm : ¬((c :: cs).head? = some '-') := by
    rw [hhead]
    simp [digit_ne_minus hcd]
  have hnp : ¬((c :: cs).head? = some '-' ∨ (c :: cs).head? = some '+') := by
    rw [hhead]
    simp [digit_ne_minus hcd, digit_ne_plus hcd]
  rw [hdata, hdrop, if_neg hnm, if_neg hnp, takeWhile_eq_self_of_all hdig]
  rw [if_neg (by simp), hval, one_mul]

/-! ### Claim C6 -/

/-- C6: `convertApiValueToGWEI` divides the integer-parsed input by ten and
renders the quotient as a decimal string: in particular
`convertApiValueToGWEI("150") = "15"` and `convertApiValueToGWEI("25") = "2.5"`,
and in general the numeral of every `n < 10^15` maps to the decimal rendering of
`n / 10` (the exact quotient digit pair `⌊n / 10⌋.(n mod 10)`, with the
fractional digit dropped when it is zero). -/
theorem convertApiValueToGWEI_div10 :
    convertApiValueToGWEI "150" = some "15" ∧
    convertApiValueToGWEI "25" = some "2.5" ∧
    ∀ n : ℕ, n < 10 ^ 15 →
      convertApiValueToGWEI (natDecRepr n) =
        some (if n % 10 = 0 then natDecRepr (n / 10)
              else natDecRepr (n / 10) ++ "." ++ natDecRepr (n % 10)) := by
  refine ⟨by decide, by decide, ?_⟩
  intro n hn
  simp only [convertApiValueToGWEI, jsParseIntBase10_natDecRepr n]
  rw [jsTenthToString]
  rw [if_pos (by simpa using hn)]
  have hneg : ¬((n : ℤ) < 0 ∧ ((n : ℤ)).natAbs ≠ 0) := by
    rintro ⟨h1, _⟩
    exact absurd h1 (by simp)
  rw [if_neg hneg]
  simp

/-- Witness for C6's universally quantified part at `n = 25`. -/
theorem convertApiValueToGWEI_div10_w :
    convertApiValueToGWEI (natDecRepr 25) =
      some (if 25 % 10 = 0 then natDecRepr (25 / 10)
            else natDecRepr (25 / 10) ++ "." ++ natDecRepr (25 % 10)) :=
  convertApiValueToGWEI_div10.2.2 25 (by decide)

/-! ### Claim C9 -/

/-- C9: `convertApiValueToGWEI` never raises for any string input — its parse
failure branch is total and produces a value: whenever the leading characters
cannot be parsed as an integer (`parseInt` returns `NaN`), the function returns
the string `"NaN"` rather than failing with an `InvalidInput` error. -/
theorem convertApiValueToGWEI_nan (s : String) (h : jsParseIntBase10 s = none) :
    convertApiValueToGWEI s = some "NaN" := by
  rw [convertApiValueToGWEI, h]

/-- Witness for C9 at the non-numeric input `"foo"`. -/
theorem convertApiValueToGWEI_nan_w : convertApiValueToGWEI "foo" = some "NaN" :=
  convertApiValueToGWEI_nan "foo" (by decide)

/-! ### Basic gas estimates fetcher -/

/-- JavaScript property access on an object modelled as a key-value list (keys
unique, as in a parsed JSON object); `none` is `undefined`. -/
def jsGet {α : Type} (obj : List (String × α)) (k : String) : Option α :=
  match obj with
  | [] => none
  | (k', v) :: rest => if k' = k then some v else jsGet rest k

/-- Source `fetchBasicGasEstimates`' response transform.  The HTTP `GET` and the
JSON parse are I/O (spec §4.3: transport and parse failures propagate to the
caller untouched, with no local recovery); what the function itself computes is
the destructuring `{average, avgWait, block_time: blockTime, blockNum, fast,
fastest, fastestWait, fastWait, safeLow, safeLowWait, speed}` of the parsed
object and the construction of the `basicEstimates` record from the bound
names.  A field absent from the response destructures to `undefined` (here
`none`) without any error; response fields not named in the pattern are
dropped. -/
def fetchBasicGasEstimates {α : Type} (resp : List (String × α)) :
    List (String × Option α) :=
  [("average", jsGet resp "average"),
   ("averageWait", jsGet resp "avgWait"),
   ("blockTime", jsGet resp "block_time"),
   ("blockNum", jsGet resp "blockNum"),
   ("fast", jsGet resp "fast"),
   ("fastest", jsGet resp "fastest"),
   ("fastestWait", jsGet resp "fastestWait"),
   ("fastWait", jsGet resp "fastWait"),
   ("safeLow", jsGet resp "safeLow"),
   ("safeLowWait", jsGet resp "safeLowWait"),
   ("speed", jsGet resp "speed")]

/-! ### Claim C7 -/

/-- C7: for every parsed response object, the produced record renames `avgWait`
to `averageWait` and `block_time` to `blockTime` (the old keys are absent from
the record), while `average`, `blockNum`, `fast`, `fastest`, `fastestWait`,
`fastWait`, `safeLow`, `safeLowWait` and `speed` are copied through under their
original names with unchanged values. -/
theorem fetchBasicGasEstimates_renames :
    ∀ (α : Type) (resp : List (String × α)),
      jsGet (fetchBasicGasEstimates resp) "averageWait" = some (jsGet resp "avgWait") ∧
      jsGet (fetchBasicGasEstimates resp) "blockTime" = some (jsGet resp "block_time") ∧
      jsGet (fetchBasicGasEstimates resp) "avgWait" = none ∧
      jsGet (fetchBasicGasEstimates resp) "block_time" = none ∧
      jsGet (fetchBasicGasEstimates resp) "average" = some (jsGet resp "average") ∧
      jsGet (fetchBasicGasEstimates resp) "blockNum" = some (jsGet resp "blockNum") ∧
      jsGet (fetchBasicGasEstimates resp) "fast" = some (jsGet resp "fast") ∧
      jsGet (fetchBasicGasEstimates resp) "fastest" = some (jsGet resp "fastest") ∧
      jsGet (fetchBasicGasEstimates resp) "fastestWait" = some (jsGet resp "fastestWait") ∧
      jsGet (fetchBasicGasEstimates resp) "fastWait" = some (jsGet resp "fastWait") ∧
      jsGet (fetchBasicGasEstimates resp) "safeLow" = some (jsGet resp "safeLow") ∧
      jsGet (fetchBasicGasEstimates resp) "safeLowWait" = some (jsGet resp "safeLowWait") ∧
      jsGet (fetchBasicGasEstimates resp) "speed" = some (jsGet resp "speed") := by
  intro α resp
  refine ⟨rfl, rfl, rfl, rfl, rfl, rfl, rfl, rfl, rfl, rfl, rfl, rfl, rfl⟩

/-! ### Claim C10 -/

/-- C10: the fetcher validates nothing about the parsed response shape — for
every response object the transform succeeds and yields a record with exactly
the eleven keys `average`, `averageWait`, `blockTime`, `blockNum`, `fast`,
`fastest`, `fastestWait`, `fastWait`, `safeLow`, `safeLowWait`, `speed` in that
order; a field missing from the response appears as an absent (`undefined`)
value rather than raising an error, and any key outside the eleven is absent
from the record (extra response fields are discarded). -/
theorem fetchBasicGasEstimates_shape :
    ∀ (α : Type) (resp : List (String × α)),
      (fetchBasicGasEstimates resp).map Prod.fst =
        ["average", "averageWait", "blockTime", "blockNum", "fast", "fastest",
         "fastestWait", "fastWait", "safeLow", "safeLowWait", "speed"] ∧
      (jsGet resp "avgWait" = none →
        jsGet (fetchBasicGasEstimates resp) "averageWait" = some none) ∧
      ∀ k : String,
        k ∉ ["average", "averageWait", "blockTime", "blockNum", "fast", "fastest",
             "fastestWait", "fastWait", "safeLow", "safeLowWait", "speed"] →
        jsGet (fetchBasicGasEstimates resp) k = none := by
  intro α resp
  refine ⟨rfl, ?_, ?_⟩
  · intro h
    have hbase : jsGet (fetchBasicGasEstimates resp) "averageWait" =
        some (jsGet resp "avgWait") := rfl
    rw [hbase, h]
  · intro k hk
    simp only [List.mem_cons, List.not_mem_nil, or_false, not_or] at hk
    obtain ⟨h1, h2, h3, h4, h5, h6, h7, h8, h9, h10, h11⟩ := hk
    simp [fetchBasicGasEstimates, jsGet, Ne.symm h1, Ne.symm h2, Ne.symm h3,
      Ne.symm h4, Ne.symm h5, Ne.symm h6, Ne.symm h7, Ne.symm h8, Ne.symm h9,
      Ne.symm h10, Ne.symm h11]

/-- Witness for C10 on the response `{average: 50, extra: 7}`: the missing
`avgWait` surfaces as an absent `averageWait` value, and the extra key is
discarded. -/
theorem fetchBasicGasEstimates_shape_w :
    jsGet (fetchBasicGasEstimates [("average", (50 : ℕ)), ("extra", 7)]) "averageWait" =
      some none ∧
    jsGet (fetchBasicGasEstimates [("average", (50 : ℕ)), ("extra", 7)]) "extra" = none :=
  ⟨(fetchBasicGasEstimates_shape ℕ [("average", 50), ("extra", 7)]).2.1 (by decide),
   (fetchBasicGasEstimates_shape ℕ [("average", 50), ("extra", 7)]).2.2 "extra" (by decide)⟩

end CustomGas
